import Mathlib

/-!
Verification development for the OpenSheets distributed-state subsystem.

Shallow embedding of:
- `src/spreadsheet/collaboration/crdt.ts` (SpreadsheetCRDT),
- `src/spreadsheet/collaboration/websocketService.ts` (WebSocketCollaborationService),
- `src/spreadsheet/persistence/ApiAdapter.ts` (fetchWithRetry, save, load, mergeValues),
- `src/spreadsheet/persistence/PersistenceManager.ts` (save queue, hybrid adapter).

JavaScript Map objects are embedded as association lists with key-unique
insert-or-replace update (`alSet`), first-match lookup (`alGet`) and
single-entry removal (`alErase`).  Machine integers of the source are
embedded as `Nat` (all quantities involved are non-negative and no
overflow-relevant arithmetic occurs).  Asynchronous control flow is
embedded as explicit state machines stepped by event lists, following the
single-threaded event-loop semantics of the host language.
-/

set_option autoImplicit false

namespace OpenSheets

/-- Insert-or-replace for an association list, mirroring JS `Map.set`:
an existing key keeps its position and gets the new value, a new key is
appended at the end (insertion order). -/
def alSet {K V : Type} [DecidableEq K] (k : K) (v : V) : List (K × V) → List (K × V)
  | [] => [(k, v)]
  | (k0, v0) :: t => if k0 = k then (k, v) :: t else (k0, v0) :: alSet k v t

/-- First-match lookup, mirroring JS `Map.get` (keys are unique under `alSet`). -/
def alGet {K V : Type} [DecidableEq K] (k : K) : List (K × V) → Option V
  | [] => none
  | (k0, v0) :: t => if k0 = k then some v0 else alGet k t

/-- Removal of the (unique) entry for a key, mirroring JS `Map.delete`. -/
def alErase {K V : Type} [DecidableEq K] (k : K) : List (K × V) → List (K × V)
  | [] => []
  | (k0, v0) :: t => if k0 = k then t else (k0, v0) :: alErase k t

/-- The `CellData` shape from `src/spreadsheet/types/spreadsheet.ts`: the `any`-typed
`value` is embedded as an optional string (`none` = `null`), `format` and
`metadata` as string-keyed objects (association lists; JS spread-merge
gives first-match lookup precedence to the overriding side). -/
structure CellData where
  value : Option String := none
  formula : Option String := none
  format : List (String × String) := []
  metadata : List (String × String) := []
deriving DecidableEq, Repr

/-- The `type` field of a `CRDTOperation`: set or delete. -/
inductive OpType where
  | set
  | delete
deriving DecidableEq, Repr

/-- The `CRDTOperation` shape from `crdt.ts`.  `data` is optional exactly as in the
source (`data?: CellData`); `vectorClock` maps userId to counter. -/
structure CRDTOperation where
  id : String
  timestamp : Nat
  userId : String
  type : OpType
  cell : Nat × Nat
  data : Option CellData := none
  vectorClock : List (String × Nat) := []
deriving DecidableEq, Repr

/-- An entry of `SpreadsheetCRDT.data`: `{ value, timestamp, userId }`. -/
structure DataEntry where
  value : CellData
  timestamp : Nat
  userId : String
deriving DecidableEq, Repr

/-- The state of a `SpreadsheetCRDT` instance.  The TS keys
`"row:col"` of the `data` map are embedded as `Nat × Nat` pairs (the key
string is injective in row and col). -/
structure SpreadsheetCRDT where
  operations : List (String × CRDTOperation)
  vectorClock : List (String × Nat)
  userId : String
  data : List ((Nat × Nat) × DataEntry)
deriving DecidableEq, Repr

/-- The `SpreadsheetCRDT` constructor: empty maps, own clock component 0. -/
def SpreadsheetCRDT.init (userId : String) : SpreadsheetCRDT :=
  { operations := [], vectorClock := [(userId, 0)], userId := userId, data := [] }

/-- Embeds `SpreadsheetCRDT.shouldApply`: on distinct timestamps last-write-wins,
on a timestamp tie the lexicographically larger `userId` wins (JS string
`>` on the incoming operation versus the stored entry). -/
def shouldApply (op : CRDTOperation) (existing : DataEntry) : Bool :=
  if op.timestamp ≠ existing.timestamp then
    decide (op.timestamp > existing.timestamp)
  else
    decide (existing.userId < op.userId)

/-- The vector-clock update loop of `applyOperation`: for every component
of the incoming clock, take the maximum with the stored component
(missing components read as 0). -/
def vcMergeInto (mine : List (String × Nat)) (other : List (String × Nat)) :
    List (String × Nat) :=
  other.foldl (fun acc p => alSet p.1 (max ((alGet p.1 acc).getD 0) p.2) acc) mine

/-- Embeds `SpreadsheetCRDT.applyOperation`: store the operation by id, merge the
vector clock, and update the per-cell register when the cell is empty or
`shouldApply` holds; a `set` writes `{value, timestamp, userId}`, a
`delete` removes the entry (the source keeps no tombstone). -/
def applyOperation (s : SpreadsheetCRDT) (op : CRDTOperation) : SpreadsheetCRDT :=
  let ops := alSet op.id op s.operations
  let vc := vcMergeInto s.vectorClock op.vectorClock
  let existing := alGet op.cell s.data
  let apply? : Bool :=
    match existing with
    | none => true
    | some e => shouldApply op e
  let newData :=
    if apply? then
      match op.type, op.data with
      | OpType.set, some d => alSet op.cell ⟨d, op.timestamp, op.userId⟩ s.data
      | OpType.set, none => s.data
      | OpType.delete, _ => alErase op.cell s.data
    else s.data
  { s with operations := ops, vectorClock := vc, data := newData }

/-- Sequential application of a list of operations (each by
`applyOperation`, as a replica receiving them in that arrival order). -/
def applyOps (s : SpreadsheetCRDT) (l : List CRDTOperation) : SpreadsheetCRDT :=
  l.foldl applyOperation s

/-- Embeds `SpreadsheetCRDT.getCell`: the current value of a cell. -/
def getCell (s : SpreadsheetCRDT) (row col : Nat) : Option CellData :=
  (alGet (row, col) s.data).map (fun e => e.value)

/-- Embeds `SpreadsheetCRDT.garbageCollect`: removes every stored operation whose
`timestamp` is below `now - olderThan` (`Date.now()` is passed explicitly
as `now`); `data` and `vectorClock` are not touched. -/
def garbageCollect (s : SpreadsheetCRDT) (now olderThan : Nat) : SpreadsheetCRDT :=
  { s with operations :=
      s.operations.filter (fun p => ! decide (p.2.timestamp < now - olderThan)) }

/-! ### ApiAdapter: fetchWithRetry, save, mergeValues, load -/

/-- Outcome of one `fetch` call inside `ApiAdapter.fetchWithRetry`: either
a response with an HTTP status, or a thrown network failure. -/
inductive FetchOutcome where
  | ok (status : Nat)
  | netError
deriving DecidableEq, Repr

/-- An outcome on which `fetchWithRetry` retries: a thrown network failure
or a 5xx response (which the source converts into a throw). -/
def transientOutcome : FetchOutcome → Bool
  | .ok s => 500 ≤ s
  | .netError => true

/-- Observable result of a whole `fetchWithRetry` run: the returned
response status (`none` when the loop exhausts its budget and rethrows
the last error), the number of `fetch` calls made, and the list of
backoff delays awaited between attempts, in order. -/
structure FetchRun where
  result : Option Nat
  fetches : Nat
  delays : List Nat
deriving DecidableEq, Repr

/-- The retry loop of `ApiAdapter.fetchWithRetry`, one recursion step per
remaining attempt; `i` is the loop index.  A 4xx response is returned
as-is; a 5xx response throws and is caught like a network error; the
catch block sleeps `retryDelay * 2 ^ i` when another attempt remains
(`i < retryAttempts - 1`, i.e. the remaining budget exceeds 1). -/
def fetchWithRetryAux (oracle : Nat → FetchOutcome) (retryDelay i : Nat) :
    Nat → FetchRun
  | 0 => ⟨none, 0, []⟩
  | n + 1 =>
    match oracle i with
    | .ok s =>
      if 400 ≤ s ∧ s < 500 then ⟨some s, 1, []⟩
      else if 500 ≤ s then
        let rest := fetchWithRetryAux oracle retryDelay (i + 1) n
        ⟨rest.result, rest.fetches + 1,
          (if 0 < n then [retryDelay * 2 ^ i] else []) ++ rest.delays⟩
      else ⟨some s, 1, []⟩
    | .netError =>
      let rest := fetchWithRetryAux oracle retryDelay (i + 1) n
      ⟨rest.result, rest.fetches + 1,
        (if 0 < n then [retryDelay * 2 ^ i] else []) ++ rest.delays⟩

/-- Embeds `ApiAdapter.fetchWithRetry` with `retryAttempts` total attempts,
fetch outcomes supplied by `oracle`. -/
def fetchWithRetry (oracle : Nat → FetchOutcome) (retryAttempts retryDelay : Nat) :
    FetchRun :=
  fetchWithRetryAux oracle retryDelay 0 retryAttempts

/-- Bounded transient check: every fetch attempt with index below `m` had
a transient outcome (5xx or network failure). -/
def allTransientBefore (oracle : Nat → FetchOutcome) (m : Nat) : Bool :=
  (List.range m).all (fun k => transientOutcome (oracle k))

/-- An `OfflineOperation` as queued by `ApiAdapter.queueOfflineOperation`
(`data` and `retries` are not inspected by the claims and omitted;
`type` keeps the source string tag). -/
structure OfflineOperation where
  type : String
  timestamp : Nat
deriving DecidableEq, Repr

/-- The observable result of `ApiAdapter.save`: the `success` flag and
whether the result carries the pending-sync message
("Saved offline, will sync when connection restored"). -/
structure SaveOutcome where
  success : Bool
  pendingSyncMsg : Bool
deriving DecidableEq, Repr

/-- Embeds `ApiAdapter.save`, restricted to its control flow over connectivity,
retries and the offline queue (CRDT bookkeeping, websocket broadcast,
conflict handling and sync-status fields do not affect the modelled
outputs and are not represented).  `isOnlineStart` is `this.isOnline` at
entry; `isOnlineAtCatch` is its value when the catch block re-reads it
(a browser offline event may have flipped it during the awaits).
Returns the `SaveResult` observables and the new offline queue. -/
def apiSave (isOnlineStart isOnlineAtCatch : Bool) (oracle : Nat → FetchOutcome)
    (retryAttempts retryDelay now : Nat) (queue : List OfflineOperation) :
    SaveOutcome × List OfflineOperation :=
  if !isOnlineStart then
    -- offline fast path: queue and report success with the pending-sync message
    (⟨true, true⟩, queue ++ [⟨"save", now⟩])
  else
    let run := fetchWithRetry oracle retryAttempts retryDelay
    match run.result with
    | some s =>
      if 200 ≤ s ∧ s < 300 then
        -- response.ok: success, no queueing
        (⟨true, false⟩, queue)
      else
        -- `if (!response.ok) throw` lands in the catch block
        (⟨false, false⟩, if !isOnlineAtCatch then queue ++ [⟨"save", now⟩] else queue)
    | none =>
      -- fetchWithRetry exhausted its budget and rethrew: catch block
      (⟨false, false⟩, if !isOnlineAtCatch then queue ++ [⟨"save", now⟩] else queue)

/-- JS object spread `\x7b ...a, ...b \x7d`: entries of `b` override
entries of `a`; with first-match lookup this is `b ++ a`. -/
def objMerge (a b : List (String × String)) : List (String × String) :=
  b ++ a

/-- Embeds `ApiAdapter.mergeValues`: missing sides fall back to the other (or to
a null-valued cell); otherwise formats merge with local overriding
server, a local formula keeps the whole local cell, and in the value
branch the result keeps the local value with metadata merged with local
overriding server (the source result object carries no formula field). -/
def mergeValues (localCell serverCell : Option CellData) : CellData :=
  match localCell with
  | none => serverCell.getD { value := none }
  | some l =>
    match serverCell with
    | none => l
    | some sv =>
      let format := objMerge sv.format l.format
      if l.formula.isSome then
        { l with format := format }
      else
        { value := l.value, formula := none, format := format,
          metadata := objMerge sv.metadata l.metadata }

/-! ### Hybrid adapter load (PersistenceManager.createHybridAdapter) -/

/-- The `PersistedState` shape from `persistence/types.ts` (the fields the load
path moves around; `validation` and `metadata` travel opaquely with the
snapshot and are omitted). -/
structure PersistedState where
  version : String
  data : List (String × CellData)
  rowHeights : List Nat
  colWidths : List Nat
deriving DecidableEq, Repr

/-- Behaviour of the remote GET inside `ApiAdapter.load`: a snapshot, a
404 (`load` returns null before any fallback), or a failure (throw or
non-ok status after retries, which the catch block handles). -/
inductive RemoteLoad where
  | ok (st : PersistedState)
  | notFound
  | failure
deriving DecidableEq, Repr

/-- Embeds `ApiAdapter.load`: returns the remote snapshot when the request
succeeds, `null` on 404, and on failure falls back to the adapter-local
localStorage cache copy (`loadFromCache`). -/
def apiLoad (remote : RemoteLoad) (apiCache : Option PersistedState) :
    Option PersistedState :=
  match remote with
  | .ok st => some st
  | .notFound => none
  | .failure => apiCache

/-- The stores that the hybrid adapter `load` reads and writes: the
LocalStorageAdapter copy, the ApiAdapter localStorage cache, and the
remote behaviour for this call. -/
structure HybridStores where
  localStore : Option PersistedState
  apiCache : Option PersistedState
  remote : RemoteLoad
deriving DecidableEq, Repr

/-- Embeds `createHybridAdapter().load`: try `apiAdapter.load` first; when it
yields a snapshot, overwrite the local adapter copy with it and return
it; otherwise fall back to the local adapter copy. -/
def hybridLoad (s : HybridStores) : Option PersistedState × HybridStores :=
  match apiLoad s.remote s.apiCache with
  | some st => (some st, { s with localStore := some st })
  | none => (s.localStore, s)

/-! ### PersistenceManager save queue

`PersistenceManager.save` checks `pendingSave`: while a save is pending
the call pushes a closure onto `saveQueue` and resolves later with the
result of the own `performSave` of that closure.  `performSave` sets
`pendingSave`, awaits one `adapter.save`, then drains `saveQueue` by
awaiting each queued closure in turn — each of which runs a further
`performSave` with its own `adapter.save` call.  The event-loop
interleaving is embedded as a state machine: `.call n` is a `save()`
invocation by caller `n` (with its own state snapshot), `.complete` is
the resolution of the `adapter.save` promise currently awaited.  A new
backend write starts only when no other is awaited (the drain loop awaits
the queued closures one at a time), so a single `inFlight` slot is
faithful; `pendingSave` is held until the drain finishes, matching the
observable behaviour of the nested `finally` blocks for traces in which
no call races the unwinding microtasks. -/

/-- Events driving the `PersistenceManager` save-queue machine. -/
inductive PMEvent where
  | call (n : Nat)
  | complete
deriving DecidableEq, Repr

/-- State of the save-queue machine.  `writes` lists the callers on whose
behalf an `adapter.save` network write was issued, in issue order;
`results` pairs each resolved caller with the write whose result it
observed. -/
structure PMState where
  pendingSave : Bool
  saveQueue : List Nat
  inFlight : Option Nat
  writes : List Nat
  results : List (Nat × Nat)
deriving DecidableEq, Repr

/-- Fresh `PersistenceManager`: no pending save, empty queue. -/
def pmInit : PMState := ⟨false, [], none, [], []⟩

/-- One step of the save-queue machine. -/
def pmStep (s : PMState) : PMEvent → PMState
  | .call n =>
    if s.pendingSave then
      { s with saveQueue := s.saveQueue ++ [n] }
    else
      { s with pendingSave := true, inFlight := some n, writes := s.writes ++ [n] }
  | .complete =>
    match s.inFlight with
    | none => s
    | some w =>
      let s1 := { s with results := s.results ++ [(w, w)] }
      match s1.saveQueue with
      | [] => { s1 with pendingSave := false, inFlight := none }
      | h :: t =>
        { s1 with saveQueue := t, inFlight := some h, writes := s1.writes ++ [h] }

/-- Run the save-queue machine over an event list. -/
def pmRun (s : PMState) (es : List PMEvent) : PMState :=
  es.foldl pmStep s

/-- The overlapping-saves scenario: caller 0 starts a write; callers
`1..n` invoke `save()` while it is pending; then every awaited
`adapter.save` resolves in turn. -/
def pmOverlapTrace (n : Nat) : List PMEvent :=
  (List.range (n + 1)).map PMEvent.call ++ List.replicate (n + 1) PMEvent.complete

/-! ### WebSocketCollaborationService connection machinery -/

/-- State of a `WebSocketCollaborationService` relevant to reconnect and
teardown.  `socketAttached`: `this.ws` holds a socket with the `onclose`
handler attached.  `closePending`: `ws.close()` was called, so the close
event will still be delivered to that handler.
`pendingReconnectDelays`: delays of `setTimeout(connect)` timers
outstanding — the source keeps no handle to them, so nothing can clear
them.  `fatalErrorCount` counts `onError` invocations with the
reconnect-exhausted error; `connectCount` counts `connect` executions. -/
structure WSState where
  reconnectAttempts : Nat
  maxReconnectAttempts : Nat
  reconnectDelay : Nat
  heartbeatOn : Bool
  socketAttached : Bool
  closePending : Bool
  pendingReconnectDelays : List Nat
  fatalErrorCount : Nat
  connectCount : Nat
deriving DecidableEq, Repr

/-- Embeds `WebSocketCollaborationService.attemptReconnect`: at or above the
attempt ceiling it reports the fatal error and returns without
scheduling; below it, it increments the attempt counter and schedules a
reconnect after `reconnectDelay * 2 ^ (attempt - 1)`. -/
def attemptReconnect (s : WSState) : WSState :=
  if s.maxReconnectAttempts ≤ s.reconnectAttempts then
    { s with fatalErrorCount := s.fatalErrorCount + 1 }
  else
    let a := s.reconnectAttempts + 1
    { s with reconnectAttempts := a,
             pendingReconnectDelays :=
               s.pendingReconnectDelays ++ [s.reconnectDelay * 2 ^ (a - 1)] }

/-- Events driving the connection machine. -/
inductive WSEvent where
  | disconnectCall
  | closeFires
  | reconnectTimerFires
deriving DecidableEq, Repr

/-- One step of the connection machine.
`disconnectCall` embeds the public `disconnect()`: `stopHeartbeat` and
`ws.close()` followed by `this.ws = null`; closing the socket makes its
close event pending, and the `onclose` handler stays attached to the
socket object.  `closeFires` delivers a close event to that handler,
which runs `onConnectionChange(false)`, `stopHeartbeat`, and
`attemptReconnect` — whether the close was requested or unexpected.
`reconnectTimerFires` is an outstanding `setTimeout` running
`connect(url)`, which attaches a fresh socket. -/
def wsStep (s : WSState) : WSEvent → WSState
  | .disconnectCall =>
    if s.socketAttached then
      { s with heartbeatOn := false, socketAttached := false, closePending := true }
    else
      { s with heartbeatOn := false }
  | .closeFires =>
    if s.closePending then
      attemptReconnect { s with heartbeatOn := false, closePending := false }
    else if s.socketAttached then
      attemptReconnect { s with heartbeatOn := false, socketAttached := false }
    else s
  | .reconnectTimerFires =>
    match s.pendingReconnectDelays with
    | [] => s
    | _ :: rest =>
      { s with pendingReconnectDelays := rest, socketAttached := true,
               connectCount := s.connectCount + 1 }

/-- Run the connection machine over an event list. -/
def wsRun (s : WSState) (es : List WSEvent) : WSState :=
  es.foldl wsStep s

/-- A connected service with the source defaults
(`maxReconnectAttempts = 5`, `reconnectDelay = 1000`), heartbeat running,
no pending timers. -/
def wsConnected : WSState :=
  { reconnectAttempts := 0, maxReconnectAttempts := 5, reconnectDelay := 1000,
    heartbeatOn := true, socketAttached := true, closePending := false,
    pendingReconnectDelays := [], fatalErrorCount := 0, connectCount := 0 }

/-! ## Theorems -/

/-- A `set` of cell (0,0) to "x" at timestamp 50 by `u1`. -/
def opSetX : CRDTOperation :=
  { id := "u1-op", timestamp := 50, userId := "u1", type := OpType.set,
    cell := (0, 0), data := some { value := some "x" }, vectorClock := [("u1", 1)] }

/-- A `delete` of cell (0,0) at the later timestamp 100 by `u2`. -/
def opDelLater : CRDTOperation :=
  { id := "u2-op", timestamp := 100, userId := "u2", type := OpType.delete,
    cell := (0, 0), data := none, vectorClock := [("u2", 1)] }

/-- C1: the claimed convergence fails on the source.  The same two
operations — a delete at timestamp 100 and a set at the earlier
timestamp 50, on the same cell — applied to two independent replicas in
the two arrival orders leave different per-cell state: a delete applied
first removes the register entry without leaving a tombstone, so the
older set is applied into an empty register and survives, while in the
other order the later delete wins.  `getCell` differs across the
replicas, refuting order-independence for set/delete interleavings. -/
theorem crdt_set_delete_diverges :
    getCell (applyOps (SpreadsheetCRDT.init "a") [opDelLater, opSetX]) 0 0
      = some { value := some "x" }
  ∧ getCell (applyOps (SpreadsheetCRDT.init "b") [opSetX, opDelLater]) 0 0 = none
  ∧ getCell (applyOps (SpreadsheetCRDT.init "a") [opDelLater, opSetX]) 0 0
      ≠ getCell (applyOps (SpreadsheetCRDT.init "b") [opSetX, opDelLater]) 0 0 := by
  refine ⟨rfl, rfl, ?_⟩
  decide

/-- C10: `garbageCollect` is a frame on everything but the operation log:
for every state, cutoff and coordinate, `getCell` and the vector clock
are unchanged, and the operation log keeps exactly the operations whose
timestamp is not below the cutoff. -/
theorem garbageCollect_frame (s : SpreadsheetCRDT) (now olderThan row col : Nat) :
    getCell (garbageCollect s now olderThan) row col = getCell s row col
  ∧ (garbageCollect s now olderThan).vectorClock = s.vectorClock
  ∧ (garbageCollect s now olderThan).operations
      = s.operations.filter (fun p => ! decide (p.2.timestamp < now - olderThan)) :=
  ⟨rfl, rfl, rfl⟩

/-- C2 counterexample: with two further `save()` calls arriving while the
first write is pending, the source issues three backend writes (one per
call), not the claimed single additional write (two in total). -/
theorem overlapping_saves_not_coalesced :
    (pmRun pmInit (pmOverlapTrace 2)).writes = [0, 1, 2]
  ∧ (pmRun pmInit (pmOverlapTrace 2)).writes.length ≠ 2 := by
  decide

/-- C4 counterexample: with the device online and every fetch attempt
failing (all retries exhausted), `ApiAdapter.save` returns
`success = false` and queues nothing — the write is dropped, contrary to
the claimed queue-and-success-pending-sync behaviour. -/
theorem apiSave_exhausted_retries_hard_failure :
    (apiSave true true (fun _ => FetchOutcome.netError) 3 1000 0 []).1.success = false
  ∧ (apiSave true true (fun _ => FetchOutcome.netError) 3 1000 0 []).2 = [] := by
  refine ⟨rfl, rfl⟩

/-- C7: teardown does not halt the retry machinery.  From a connected
service, `disconnect()` stops the heartbeat, but the `onclose` handler
stays attached to the closed socket: when the close event fires, a
reconnect is scheduled after 1000 ms (with no handle by which it could be
cancelled), and when that timer fires, `connect` runs again — contrary to
the claim that after `disconnect()` no reconnect attempt is ever
scheduled or executed. -/
theorem disconnect_then_reconnect_scheduled :
    (wsRun wsConnected [WSEvent.disconnectCall, WSEvent.closeFires]).pendingReconnectDelays
      = [1000]
  ∧ (wsRun wsConnected [WSEvent.disconnectCall, WSEvent.closeFires]).heartbeatOn = false
  ∧ (wsRun wsConnected
      [WSEvent.disconnectCall, WSEvent.closeFires, WSEvent.reconnectTimerFires]).connectCount
      = 1 := by
  refine ⟨rfl, rfl, rfl⟩

/-- C8 counterexample: for a local cell without formula, the merge
strategy keeps the local value "a"; it does not fall back to the server
value "b" as claimed. -/
theorem mergeValues_value_not_server :
    (mergeValues (some { value := some "a" }) (some { value := some "b" })).value
      = some "a"
  ∧ (mergeValues (some { value := some "a" }) (some { value := some "b" })).value
      ≠ some "b" := by
  refine ⟨rfl, ?_⟩
  decide

/-- Helper for the equal-timestamp tie-break: with two `set` operations on
the same cell at the same timestamp and `a.userId < b.userId`, both
application orders on a fresh replica leave the payload of `b` in the cell. -/
lemma two_sets_tie (u0 : String) (a b : CRDTOperation) (c : Nat × Nat) (t : Nat)
    (da db : CellData)
    (hac : a.cell = c) (hbc : b.cell = c) (hat : a.timestamp = t) (hbt : b.timestamp = t)
    (haty : a.type = OpType.set) (hbty : b.type = OpType.set)
    (had : a.data = some da) (hbd : b.data = some db)
    (h : a.userId < b.userId) :
    getCell (applyOps (SpreadsheetCRDT.init u0) [a, b]) c.1 c.2 = some db
  ∧ getCell (applyOps (SpreadsheetCRDT.init u0) [b, a]) c.1 c.2 = some db := by
  constructor
  · show getCell (applyOperation (applyOperation (SpreadsheetCRDT.init u0) a) b) c.1 c.2
      = some db
    simp [applyOperation, getCell, SpreadsheetCRDT.init, shouldApply, alGet, alSet,
      hac, hbc, hat, hbt, haty, hbty, had, hbd, h]
  · show getCell (applyOperation (applyOperation (SpreadsheetCRDT.init u0) b) a) c.1 c.2
      = some db
    simp [applyOperation, getCell, SpreadsheetCRDT.init, shouldApply, alGet, alSet,
      hac, hbc, hat, hbt, haty, hbty, had, hbd, asymm h]

/-- C3: two `set` operations on the same cell with equal timestamps and
distinct userIds converge in either application order, and the winner is
the operation with the lexicographically greater userId. -/
theorem tiebreak_converges (c : Nat × Nat) (t : Nat) (u0 : String)
    (a b : CRDTOperation) (da db : CellData)
    (hac : a.cell = c) (hbc : b.cell = c) (hat : a.timestamp = t) (hbt : b.timestamp = t)
    (haty : a.type = OpType.set) (hbty : b.type = OpType.set)
    (had : a.data = some da) (hbd : b.data = some db)
    (hne : a.userId ≠ b.userId) :
    getCell (applyOps (SpreadsheetCRDT.init u0) [a, b]) c.1 c.2
      = getCell (applyOps (SpreadsheetCRDT.init u0) [b, a]) c.1 c.2
  ∧ getCell (applyOps (SpreadsheetCRDT.init u0) [a, b]) c.1 c.2
      = some (if a.userId < b.userId then db else da) := by
  rcases lt_or_gt_of_ne hne with h | h
  · obtain ⟨h1, h2⟩ := two_sets_tie u0 a b c t da db hac hbc hat hbt haty hbty had hbd h
    exact ⟨h1.trans h2.symm, by rw [h1, if_pos h]⟩
  · obtain ⟨h1, h2⟩ := two_sets_tie u0 b a c t db da hbc hac hbt hat hbty haty hbd had h
    exact ⟨h2.trans h1.symm, by rw [h2, if_neg (asymm h)]⟩

/-- The scenario payloads: `u1` writes "x", `u2` writes "y". -/
def cellX : CellData := { value := some "x" }

/-- See `cellX`. -/
def cellY : CellData := { value := some "y" }

/-- User `u1` sets (0,0) to "x" at timestamp 100. -/
def tieOpU1 : CRDTOperation :=
  { id := "t1", timestamp := 100, userId := "u1", type := OpType.set,
    cell := (0, 0), data := some cellX, vectorClock := [("u1", 1)] }

/-- User `u2` sets (0,0) to "y" at timestamp 100. -/
def tieOpU2 : CRDTOperation :=
  { id := "t2", timestamp := 100, userId := "u2", type := OpType.set,
    cell := (0, 0), data := some cellY, vectorClock := [("u2", 1)] }

/-- Witness for C3 at the spec scenario: both orders leave "y" (from
`u2`, the lexicographically greater userId) in cell (0,0). -/
theorem tiebreak_converges_witness :
    getCell (applyOps (SpreadsheetCRDT.init "obs") [tieOpU1, tieOpU2]) 0 0
      = getCell (applyOps (SpreadsheetCRDT.init "obs") [tieOpU2, tieOpU1]) 0 0
  ∧ getCell (applyOps (SpreadsheetCRDT.init "obs") [tieOpU1, tieOpU2]) 0 0
      = some cellY := by
  have h := tiebreak_converges (0, 0) 100 "obs" tieOpU1 tieOpU2 cellX cellY
    rfl rfl rfl rfl rfl rfl rfl rfl (by decide)
  have hlt : tieOpU1.userId < tieOpU2.userId := by
    show ("u1" : String) < "u2"
    rw [String.lt_iff_toList_lt]
    decide
  rwa [if_pos hlt] at h

/-- While a save is pending, further `save()` calls only enqueue. -/
lemma pmRun_calls_pending (s : PMState) (hs : s.pendingSave = true) (l : List Nat) :
    pmRun s (l.map PMEvent.call) = { s with saveQueue := s.saveQueue ++ l } := by
  induction l generalizing s with
  | nil => simp [pmRun]
  | cons n t ih =>
    simp only [List.map_cons, pmRun, List.foldl_cons]
    have hstep : pmStep s (PMEvent.call n) = { s with saveQueue := s.saveQueue ++ [n] } := by
      simp [pmStep, hs]
    rw [hstep]
    have := ih { s with saveQueue := s.saveQueue ++ [n] } hs
    simp only [pmRun] at this
    rw [this]
    simp

/-- Draining: with a write in flight and `q` queued callers, the next
`q.length + 1` completions issue one further write per queued caller, in
queue order, and resolve every caller with the result of its own write. -/
lemma pmRun_drain (q : List Nat) : ∀ (w : Nat) (wr : List Nat) (rs : List (Nat × Nat)),
    pmRun ⟨true, q, some w, wr, rs⟩ (List.replicate (q.length + 1) PMEvent.complete)
      = ⟨false, [], none, wr ++ q, rs ++ (w :: q).map (fun i => (i, i))⟩ := by
  induction q with
  | nil =>
    intro w wr rs
    simp [pmRun, pmStep, List.replicate]
  | cons h t ih =>
    intro w wr rs
    have hrep : List.replicate ((h :: t).length + 1) PMEvent.complete
        = PMEvent.complete :: List.replicate (t.length + 1) PMEvent.complete := by
      simp [List.replicate_succ]
    rw [hrep]
    simp only [pmRun, List.foldl_cons]
    have hstep : pmStep ⟨true, h :: t, some w, wr, rs⟩ PMEvent.complete
        = ⟨true, t, some h, wr ++ [h], rs ++ [(w, w)]⟩ := by
      simp [pmStep]
    rw [hstep]
    have := ih h (wr ++ [h]) (rs ++ [(w, w)])
    simp only [pmRun] at this
    rw [this]
    simp

/-- C2 (amended): from a fresh manager, the `save()` of caller 0 starts a
write and callers `1..n` call `save()` while it is pending; the queued
calls do not run concurrently but each performs its own backend write
after the in-flight one completes — `n + 1` writes in FIFO order in
total (`n` additional ones, not the claimed single coalesced write) —
and each caller observes the result of its own write. -/
theorem overlapping_saves_serialize (n : Nat) :
    pmRun pmInit (pmOverlapTrace n)
      = ⟨false, [], none, List.range (n + 1), (List.range (n + 1)).map (fun i => (i, i))⟩ := by
  have hsplit : pmRun pmInit (pmOverlapTrace n)
      = pmRun (pmRun pmInit ((List.range (n + 1)).map PMEvent.call))
          (List.replicate (n + 1) PMEvent.complete) := by
    simp [pmOverlapTrace, pmRun, List.foldl_append]
  have hcalls : pmRun pmInit ((List.range (n + 1)).map PMEvent.call)
      = ⟨true, (List.range n).map Nat.succ, some 0, [0], []⟩ := by
    rw [List.range_succ_eq_map, List.map_cons]
    simp only [pmRun, List.foldl_cons]
    have h0 : pmStep pmInit (PMEvent.call 0) = ⟨true, [], some 0, [0], []⟩ := rfl
    rw [h0]
    have := pmRun_calls_pending ⟨true, [], some 0, [0], []⟩ rfl ((List.range n).map Nat.succ)
    simp only [pmRun] at this
    simpa using this
  have hlen : ((List.range n).map Nat.succ).length = n := by simp
  rw [hsplit, hcalls]
  have hdrain := pmRun_drain ((List.range n).map Nat.succ) 0 [0] []
  rw [hlen] at hdrain
  rw [hdrain]
  simp [List.range_succ_eq_map]

/-- Every retried attempt (every attempt that was followed by another
fetch) had a transient outcome. -/
lemma fwrAux_transient (oracle : Nat → FetchOutcome) (d : Nat) :
    ∀ (n i k : Nat), k + 1 < (fetchWithRetryAux oracle d i n).fetches →
      transientOutcome (oracle (i + k)) = true := by
  intro n
  induction n with
  | zero =>
    intro i k hk
    simp [fetchWithRetryAux] at hk
  | succ n ih =>
    intro i k hk
    simp only [fetchWithRetryAux] at hk
    cases houtcome : oracle i with
    | ok s =>
      rw [houtcome] at hk
      dsimp only at hk
      by_cases h45 : 400 ≤ s ∧ s < 500
      · rw [if_pos h45] at hk
        simp at hk
      · rw [if_neg h45] at hk
        by_cases h5 : 500 ≤ s
        · rw [if_pos h5] at hk
          simp only at hk
          cases k with
          | zero =>
            rw [Nat.add_zero, houtcome]
            simp [transientOutcome, h5]
          | succ j =>
            have hj : j + 1 < (fetchWithRetryAux oracle d (i + 1) n).fetches := by
              omega
            have := ih (i + 1) j hj
            rw [show i + (j + 1) = (i + 1) + j by omega]
            exact this
        · rw [if_neg h5] at hk
          simp at hk
    | netError =>
      rw [houtcome] at hk
      dsimp only at hk
      cases k with
      | zero =>
        rw [Nat.add_zero, houtcome]
        simp [transientOutcome]
      | succ j =>
        have hj : j + 1 < (fetchWithRetryAux oracle d (i + 1) n).fetches := by
          omega
        have := ih (i + 1) j hj
        rw [show i + (j + 1) = (i + 1) + j by omega]
        exact this

/-- With a positive remaining budget at least one fetch happens. -/
lemma fwrAux_fetches_pos (oracle : Nat → FetchOutcome) (d i n : Nat) (hn : 0 < n) :
    0 < (fetchWithRetryAux oracle d i n).fetches := by
  cases n with
  | zero => omega
  | succ n =>
    simp only [fetchWithRetryAux]
    cases houtcome : oracle i with
    | ok s =>
      dsimp only
      by_cases h45 : 400 ≤ s ∧ s < 500
      · rw [if_pos h45]
        simp
      · rw [if_neg h45]
        by_cases h5 : 500 ≤ s
        · rw [if_pos h5]
          simp
        · rw [if_neg h5]
          simp
    | netError =>
      dsimp only
      simp

/-- The delays awaited are exactly `d * 2 ^ index` for each retried
attempt index, in order. -/
lemma fwrAux_delays (oracle : Nat → FetchOutcome) (d : Nat) :
    ∀ (n i : Nat),
      (fetchWithRetryAux oracle d i n).delays
        = (List.range ((fetchWithRetryAux oracle d i n).fetches - 1)).map
            (fun k => d * 2 ^ (i + k)) := by
  intro n
  induction n with
  | zero =>
    intro i
    simp [fetchWithRetryAux]
  | succ n ih =>
    intro i
    simp only [fetchWithRetryAux]
    cases houtcome : oracle i with
    | ok s =>
      dsimp only
      by_cases h45 : 400 ≤ s ∧ s < 500
      · rw [if_pos h45]
        simp
      · rw [if_neg h45]
        by_cases h5 : 500 ≤ s
        · rw [if_pos h5]
          dsimp only
          cases n with
          | zero =>
            simp [fetchWithRetryAux]
          | succ m =>
            rw [if_pos (by omega : 0 < m + 1)]
            obtain ⟨f, hf⟩ : ∃ f, (fetchWithRetryAux oracle d (i + 1) (m + 1)).fetches = f + 1 :=
              ⟨_, (Nat.succ_pred_eq_of_pos (fwrAux_fetches_pos oracle d (i + 1) (m + 1)
                (by omega))).symm⟩
            rw [ih (i + 1), hf]
            simp only [Nat.add_sub_cancel, List.singleton_append]
            rw [List.range_succ_eq_map, List.map_cons, List.map_map]
            have hfun : ((fun k => d * 2 ^ (i + k)) ∘ Nat.succ)
                = (fun k => d * 2 ^ ((i + 1) + k)) := by
              funext k
              simp only [Function.comp]
              rw [show i + (k + 1) = (i + 1) + k by omega]
            rw [hfun]
            simp
        · rw [if_neg h5]
          simp
    | netError =>
      dsimp only
      cases n with
      | zero =>
        simp [fetchWithRetryAux]
      | succ m =>
        rw [if_pos (by omega : 0 < m + 1)]
        obtain ⟨f, hf⟩ : ∃ f, (fetchWithRetryAux oracle d (i + 1) (m + 1)).fetches = f + 1 :=
          ⟨_, (Nat.succ_pred_eq_of_pos (fwrAux_fetches_pos oracle d (i + 1) (m + 1)
            (by omega))).symm⟩
        rw [ih (i + 1), hf]
        simp only [Nat.add_sub_cancel, List.singleton_append]
        rw [List.range_succ_eq_map, List.map_cons, List.map_map]
        have hfun : ((fun k => d * 2 ^ (i + k)) ∘ Nat.succ)
            = (fun k => d * 2 ^ ((i + 1) + k)) := by
          funext k
          simp only [Function.comp]
          rw [show i + (k + 1) = (i + 1) + k by omega]
        rw [hfun]
        simp

/-- C5: `fetchWithRetry` retries only on transient outcomes (5xx or a
thrown network failure) — every attempt that was followed by another
fetch was transient; the retry after failed attempt `k` is preceded by a
delay of `retryDelay * 2 ^ k` (the delays list is exactly that
sequence); and an initial 4xx response is returned to the caller after a
single fetch with no delay. -/
theorem fetchWithRetry_spec (r d : Nat) (oracle oracleC : Nat → FetchOutcome) (s : Nat)
    (hr : 0 < r) (hc : oracleC 0 = FetchOutcome.ok s) (h4a : 400 ≤ s) (h4b : s < 500) :
    allTransientBefore oracle ((fetchWithRetry oracle r d).fetches - 1) = true
  ∧ (fetchWithRetry oracle r d).delays
      = (List.range ((fetchWithRetry oracle r d).fetches - 1)).map (fun k => d * 2 ^ k)
  ∧ fetchWithRetry oracleC r d = ⟨some s, 1, []⟩ := by
  refine ⟨?_, ?_, ?_⟩
  · unfold allTransientBefore
    rw [List.all_eq_true]
    intro k hk
    rw [List.mem_range] at hk
    have hk' : k + 1 < (fetchWithRetry oracle r d).fetches := by omega
    have := fwrAux_transient oracle d r 0 k hk'
    simpa using this
  · have := fwrAux_delays oracle d r 0
    simpa using this
  · unfold fetchWithRetry
    cases r with
    | zero => omega
    | succ n =>
      simp only [fetchWithRetryAux]
      rw [hc]
      dsimp only
      rw [if_pos ⟨h4a, h4b⟩]

/-- A transient run: 503, then a network error, then success. -/
def oracleTransientRun : Nat → FetchOutcome := fun k =>
  if k = 0 then FetchOutcome.ok 503
  else if k = 1 then FetchOutcome.netError
  else FetchOutcome.ok 200

/-- A client rejection on the first attempt. -/
def oracleClient : Nat → FetchOutcome := fun _ => FetchOutcome.ok 404

/-- Witness for C5 at 3 attempts with base delay 1000: the 503 and the
network error are retried after 1000 and 2000 ms, and a 404 run returns
after a single fetch with no delays. -/
theorem fetchWithRetry_spec_witness :
    0 < 3
  ∧ (allTransientBefore oracleTransientRun
        ((fetchWithRetry oracleTransientRun 3 1000).fetches - 1) = true
    ∧ (fetchWithRetry oracleTransientRun 3 1000).delays
        = (List.range ((fetchWithRetry oracleTransientRun 3 1000).fetches - 1)).map
            (fun k => 1000 * 2 ^ k)
    ∧ fetchWithRetry oracleClient 3 1000 = ⟨some 404, 1, []⟩) :=
  ⟨by decide,
    fetchWithRetry_spec 3 1000 oracleTransientRun oracleClient 404
      (by decide) rfl (by decide) (by decide)⟩

/-- C4 (amended): when the device is offline at entry, `save` queues an
`OfflineOperation` and returns `success = true` with the pending-sync
message; but when the fetch path has exhausted its retries, `save`
returns `success = false` (a hard failure), and the operation is queued
only if the device has gone offline by the time the failure is handled. -/
theorem apiSave_offline_or_exhausted (isOnlineAtCatch : Bool)
    (oracle : Nat → FetchOutcome) (r d now : Nat) (q : List OfflineOperation)
    (hfail : (fetchWithRetry oracle r d).result = none) :
    apiSave false isOnlineAtCatch oracle r d now q
      = (⟨true, true⟩, q ++ [⟨"save", now⟩])
  ∧ apiSave true isOnlineAtCatch oracle r d now q
      = (⟨false, false⟩, if !isOnlineAtCatch then q ++ [⟨"save", now⟩] else q) := by
  constructor
  · simp [apiSave]
  · simp [apiSave, hfail]

/-- Witness for C4 (amended) with every fetch attempt failing: offline
start queues and reports pending-sync success; online start with
exhausted retries reports failure and leaves the queue empty. -/
theorem apiSave_offline_or_exhausted_witness :
    (fetchWithRetry (fun _ => FetchOutcome.netError) 3 1000).result = none
  ∧ (apiSave false true (fun _ => FetchOutcome.netError) 3 1000 7 []
      = (⟨true, true⟩, [] ++ [⟨"save", 7⟩])
    ∧ apiSave true true (fun _ => FetchOutcome.netError) 3 1000 7 []
      = (⟨false, false⟩, if !true then [] ++ [⟨"save", 7⟩] else [])) :=
  ⟨rfl, apiSave_offline_or_exhausted true (fun _ => FetchOutcome.netError) 3 1000 7 [] rfl⟩

/-- C6: below the attempt ceiling, an unexpected disconnect schedules
reconnect attempt `a = attempts + 1` after exactly
`reconnectDelay * 2 ^ (a - 1)`, a delay never exceeding
`reconnectDelay * 2 ^ (maxReconnectAttempts - 1)`, with no error; once
the ceiling is reached, `attemptReconnect` reports the fatal
connectivity error, schedules nothing, and leaves the state otherwise
unchanged (so every later automatic invocation also schedules nothing). -/
theorem attemptReconnect_spec (s sMax : WSState)
    (h : s.reconnectAttempts < s.maxReconnectAttempts)
    (hm : sMax.maxReconnectAttempts ≤ sMax.reconnectAttempts) :
    (attemptReconnect s).pendingReconnectDelays
      = s.pendingReconnectDelays
        ++ [s.reconnectDelay * 2 ^ (s.reconnectAttempts + 1 - 1)]
  ∧ (attemptReconnect s).reconnectAttempts = s.reconnectAttempts + 1
  ∧ s.reconnectDelay * 2 ^ (s.reconnectAttempts + 1 - 1)
      ≤ s.reconnectDelay * 2 ^ (s.maxReconnectAttempts - 1)
  ∧ (attemptReconnect s).fatalErrorCount = s.fatalErrorCount
  ∧ attemptReconnect sMax
      = { sMax with fatalErrorCount := sMax.fatalErrorCount + 1 } := by
  have hno : ¬ s.maxReconnectAttempts ≤ s.reconnectAttempts := by omega
  refine ⟨?_, ?_, ?_, ?_, ?_⟩
  · simp [attemptReconnect, hno]
  · simp [attemptReconnect, hno]
  · exact Nat.mul_le_mul (le_refl _)
      (Nat.pow_le_pow_right (by omega) (by omega))
  · simp [attemptReconnect, hno]
  · simp [attemptReconnect, hm]

/-- A service that has consumed all five reconnect attempts. -/
def wsExhausted : WSState := { wsConnected with reconnectAttempts := 5 }

/-- Witness for C6: with the source defaults, the first reconnect after a
disconnect is scheduled after 1000 ms (within the 16000 ms bound), and at
the ceiling the fatal error fires with nothing scheduled. -/
theorem attemptReconnect_spec_witness :
    wsConnected.reconnectAttempts < wsConnected.maxReconnectAttempts
  ∧ wsExhausted.maxReconnectAttempts ≤ wsExhausted.reconnectAttempts
  ∧ ((attemptReconnect wsConnected).pendingReconnectDelays
      = wsConnected.pendingReconnectDelays
        ++ [wsConnected.reconnectDelay * 2 ^ (wsConnected.reconnectAttempts + 1 - 1)]
    ∧ (attemptReconnect wsConnected).reconnectAttempts
        = wsConnected.reconnectAttempts + 1
    ∧ wsConnected.reconnectDelay * 2 ^ (wsConnected.reconnectAttempts + 1 - 1)
        ≤ wsConnected.reconnectDelay * 2 ^ (wsConnected.maxReconnectAttempts - 1)
    ∧ (attemptReconnect wsConnected).fatalErrorCount = wsConnected.fatalErrorCount
    ∧ attemptReconnect wsExhausted
        = { wsExhausted with fatalErrorCount := wsExhausted.fatalErrorCount + 1 }) :=
  ⟨by decide, by decide,
    attemptReconnect_spec wsConnected wsExhausted (by decide) (by decide)⟩

/-- First-match lookup over the JS spread-merge: the overriding side `b`
wins on overlapping keys, `a` fills in the rest. -/
lemma lookup_objMerge (a b : List (String × String)) (k : String) :
    List.lookup k (objMerge a b) = (List.lookup k b).or (List.lookup k a) := by
  induction b with
  | nil => simp [objMerge]
  | cons p t ih =>
    obtain ⟨k0, v⟩ := p
    simp only [objMerge, List.cons_append, List.lookup] at *
    cases hpk : (k == k0) <;> simp [hpk, ih]

/-- C8 (amended): under the `merge` strategy, formatting merges with the
local cell overriding the server cell on overlapping keys; a local cell
carrying a formula resolves to the local cell with the merged format;
otherwise the resolution keeps the local value (not the server value),
with metadata merged local-over-server. -/
theorem merge_strategy_fields (lv lf sv : CellData) (k : String)
    (hnf : lv.formula = none) (hf : lf.formula.isSome = true) :
    List.lookup k (mergeValues (some lv) (some sv)).format
      = (List.lookup k lv.format).or (List.lookup k sv.format)
  ∧ mergeValues (some lf) (some sv) = { lf with format := objMerge sv.format lf.format }
  ∧ (mergeValues (some lv) (some sv)).value = lv.value
  ∧ List.lookup k (mergeValues (some lv) (some sv)).metadata
      = (List.lookup k lv.metadata).or (List.lookup k sv.metadata) := by
  refine ⟨?_, ?_, ?_, ?_⟩
  · simp [mergeValues, hnf, lookup_objMerge]
  · simp [mergeValues, hf]
  · simp [mergeValues, hnf]
  · simp [mergeValues, hnf, lookup_objMerge]

/-- A local cell without formula: value "a", bold, red, local metadata. -/
def mergeLocalCell : CellData :=
  { value := some "a", format := [("bold", "true"), ("color", "red")],
    metadata := [("m", "local")] }

/-- A local cell carrying a formula. -/
def mergeFormulaCell : CellData :=
  { value := some "f", formula := some "=SUM(A1)" }

/-- The server cell: value "b", blue, size 12, server metadata. -/
def mergeServerCell : CellData :=
  { value := some "b", format := [("color", "blue"), ("size", "12")],
    metadata := [("m", "server"), ("n", "sv")] }

/-- Witness for C8 (amended) on the overlapping key "color": local
overrides server in the merged format, a formula cell stays local, and
the value branch keeps the local value and local-over-server metadata. -/
theorem merge_strategy_fields_witness :
    mergeLocalCell.formula = none
  ∧ mergeFormulaCell.formula.isSome = true
  ∧ (List.lookup "color" (mergeValues (some mergeLocalCell) (some mergeServerCell)).format
      = (List.lookup "color" mergeLocalCell.format).or
          (List.lookup "color" mergeServerCell.format)
    ∧ mergeValues (some mergeFormulaCell) (some mergeServerCell)
        = { mergeFormulaCell with
            format := objMerge mergeServerCell.format mergeFormulaCell.format }
    ∧ (mergeValues (some mergeLocalCell) (some mergeServerCell)).value
        = mergeLocalCell.value
    ∧ List.lookup "color" (mergeValues (some mergeLocalCell) (some mergeServerCell)).metadata
        = (List.lookup "color" mergeLocalCell.metadata).or
            (List.lookup "color" mergeServerCell.metadata)) :=
  ⟨rfl, rfl,
    merge_strategy_fields mergeLocalCell mergeFormulaCell mergeServerCell "color" rfl rfl⟩

/-- C9: when the remote GET returns a snapshot, the hybrid `load` returns
it and overwrites the local adapter copy with it; when the remote fails,
it returns the last locally cached snapshot (the ApiAdapter cache copy
when one exists — the source never writes that cache — else the local
adapter copy). -/
theorem hybridLoad_spec (sOk sF : HybridStores) (st : PersistedState)
    (hok : sOk.remote = RemoteLoad.ok st) (hf : sF.remote = RemoteLoad.failure) :
    hybridLoad sOk = (some st, { sOk with localStore := some st })
  ∧ (hybridLoad sF).1 = sF.apiCache.or sF.localStore := by
  constructor
  · simp [hybridLoad, apiLoad, hok]
  · simp only [hybridLoad, apiLoad, hf]
    cases sF.apiCache <;> simp

/-- The snapshot held by the local adapter before the call. -/
def snapLocal : PersistedState := ⟨"2.0.0", [("0:0", cellX)], [20], [100]⟩

/-- The snapshot the remote returns when reachable. -/
def snapRemote : PersistedState := ⟨"2.0.0", [("0:0", cellY)], [24], [120]⟩

/-- Witness for C9: a reachable remote returns its snapshot and
overwrites the local copy; an unreachable remote (empty ApiAdapter
cache) falls back to the local copy. -/
theorem hybridLoad_spec_witness :
    (HybridStores.mk (some snapLocal) none (RemoteLoad.ok snapRemote)).remote
      = RemoteLoad.ok snapRemote
  ∧ (HybridStores.mk (some snapLocal) none RemoteLoad.failure).remote
      = RemoteLoad.failure
  ∧ (hybridLoad ⟨some snapLocal, none, RemoteLoad.ok snapRemote⟩
      = (some snapRemote,
          { HybridStores.mk (some snapLocal) none (RemoteLoad.ok snapRemote) with
            localStore := some snapRemote })
    ∧ (hybridLoad ⟨some snapLocal, none, RemoteLoad.failure⟩).1
        = (none : Option PersistedState).or (some snapLocal)) :=
  ⟨rfl, rfl,
    hybridLoad_spec ⟨some snapLocal, none, RemoteLoad.ok snapRemote⟩
      ⟨some snapLocal, none, RemoteLoad.failure⟩ snapRemote rfl rfl⟩

end OpenSheets
